import Mathlib

/-!
Shallow embedding of the limitless-sdk order-validation, HTTP-error, retry and
logging code, together with theorems settling the specification claims about it.

Numbers: Python floats are modelled as exact rationals (ℚ); integers as ℤ/ℕ.
`isinstance(x, int)` / `isinstance(x, (int, float))` guards from the source are
vacuously true in this typed embedding and are noted where they occur.
-/

namespace LimitlessSDK

/-- Decidable equality for `Except`, used to evaluate validator results on
concrete inputs. -/
instance instDecEqExcept {ε α : Type} [DecidableEq ε] [DecidableEq α] :
    DecidableEq (Except ε α) := fun a b =>
  match a, b with
  | .ok x, .ok y => decidable_of_iff (x = y) (by simp)
  | .error x, .error y => decidable_of_iff (x = y) (by simp)
  | .ok _, .error _ => isFalse (by simp)
  | .error _, .ok _ => isFalse (by simp)

/-- Runs a Python-style sequence of `if cond: raise ValidationError(msg)`
statements: the first true condition produces its error, otherwise success. -/
def runChecks : List (Bool × String) → Except String Unit
  | [] => .ok ()
  | (c, m) :: rest => if c then .error m else runChecks rest

theorem runChecks_ok_iff (l : List (Bool × String)) :
    runChecks l = .ok () ↔ ∀ cm ∈ l, cm.1 = false := by
  induction l with
  | nil => simp [runChecks]
  | cons cm rest ih =>
    obtain ⟨c, m⟩ := cm
    cases c <;> simp [runChecks, ih]

theorem runChecks_ne_ok (l : List (Bool × String)) (c : Bool) (m : String)
    (hmem : (c, m) ∈ l) (hc : c = true) : ∃ e, runChecks l = .error e := by
  rcases h : runChecks l with e | u
  · exact ⟨e, rfl⟩
  · rw [runChecks_ok_iff] at h
    have := h (c, m) hmem
    simp_all

/-- Bool test that `needle` is a prefix of `hay` (character lists). -/
def startsWithChars : List Char → List Char → Bool
  | _, [] => true
  | [], _ :: _ => false
  | a :: as, b :: bs => a == b && startsWithChars as bs

/-- Bool test that `needle` occurs contiguously inside `hay`. -/
def hasSubChars : List Char → List Char → Bool
  | [], needle => needle.isEmpty
  | a :: t, needle => startsWithChars (a :: t) needle || hasSubChars t needle

/-- Python's `needle in hay` on strings. -/
def strContainsSub (hay needle : String) : Bool :=
  hasSubChars hay.toList needle.toList

/-- Python `str.startswith` modelled on character lists (kernel-reducible,
unlike `String.startsWith`). -/
def pyStartsWith (s pre : String) : Bool :=
  startsWithChars s.toList pre.toList

/-- True exactly for the ASCII characters of the regex class `[0-9a-fA-F]`. -/
def isHexChar (c : Char) : Bool :=
  c.isDigit || ('a' ≤ c && c ≤ 'f') || ('A' ≤ c && c ≤ 'F')

/-- Python `re.match` of the pattern `^\d+$` against a string, as used by
`validator.py` for token ids.  In CPython `$` matches at the end of the string
or just before a single newline at the end of the string, so the pattern accepts
one or more digits optionally followed by exactly one trailing newline.  The
`\d` class is modelled as the ASCII digits 0-9 (CPython additionally accepts
other Unicode decimal digits; non-ASCII digits are outside this model). -/
def pyMatchDigits (s : String) : Bool :=
  let l := s.toList
  (decide (l ≠ []) && l.all Char.isDigit)
    || (decide (l.dropLast ≠ []) && l.dropLast.all Char.isDigit
         && decide (l.getLast? = some '\n'))

/-- Core of `re.match` for patterns of the form `^0x[0-9a-fA-F]{n}$`: a full
match of `"0x"` followed by exactly `n` hex characters. -/
def matchHexCore (l : List Char) (n : Nat) : Bool :=
  match l with
  | '0' :: 'x' :: rest => decide (rest.length = n) && rest.all isHexChar
  | _ => false

/-- Python `re.match` of `^0x[0-9a-fA-F]{n}$`; as with `pyMatchDigits`, `$` also
matches just before one trailing newline. -/
def pyMatchHex (s : String) (n : Nat) : Bool :=
  matchHexCore s.toList n
    || (decide (s.toList.getLast? = some '\n') && matchHexCore s.toList.dropLast n)

/-- Embeds `validator.py` `_is_valid_address`: falsy (empty) or non-string input
is invalid (non-strings cannot occur in the typed embedding), otherwise the
address must match `^0x[0-9a-fA-F]{40}$`. -/
def is_valid_address (address : String) : Bool :=
  if address = "" then false
  else pyMatchHex address 40

/-- Embeds the `Side` enumeration (BUY = 0, SELL = 1).  The argument validators
receive a `Side` but none of their checks read it. -/
inductive Side where
  | buy
  | sell
  deriving DecidableEq

/-- Source check `taker is not None and not _is_valid_address(taker)`, shared by
the GTC and FOK argument validators. -/
def optBadAddress (taker : Option String) : Bool :=
  match taker with
  | some a => !is_valid_address a
  | none => false

/-- Source check `x is not None and (not isinstance(x, int) or x < 0)` used for
the optional `expiration` and `nonce` arguments; the `isinstance` half is
vacuous in the typed embedding. -/
def optNegativeInt (x : Option Int) : Bool :=
  match x with
  | some v => decide (v < 0)
  | none => false

theorem optBadAddress_false_iff (taker : Option String) :
    optBadAddress taker = false ↔ ∀ a ∈ taker, is_valid_address a = true := by
  cases taker <;> simp [optBadAddress]

theorem optNegativeInt_false_iff (x : Option Int) :
    optNegativeInt x = false ↔ ∀ v ∈ x, 0 ≤ v := by
  cases x <;> simp [optNegativeInt]

/-- Embeds `validator.py` `validate_gtc_order_args` as the source's sequence of
raise-on-condition checks, in source order.  Failures are returned as
`Except.error` carrying the `ValidationError` message.  The
`isinstance(price, (int, float))` and `isinstance(size, (int, float))` guards
are vacuous here because `price` and `size` are numbers by type. -/
def validate_gtc_order_args (token_id : String) (price : ℚ) (size : ℚ)
    (side : Side) (taker : Option String) (expiration : Option Int)
    (nonce : Option Int) : Except String Unit :=
  runChecks [
    (decide (token_id = ""), "TokenId is required"),
    (decide (token_id = "0"), "TokenId cannot be zero"),
    (!pyMatchDigits token_id, s!"Invalid tokenId format: {token_id}"),
    (optBadAddress taker, "Invalid taker address"),
    (optNegativeInt expiration, "Invalid expiration format"),
    (optNegativeInt nonce, "Invalid nonce"),
    (decide (price < 0 ∨ 1 < price), "Price must be between 0 and 1"),
    (decide (size ≤ 0), "Size must be positive")]

/-- Characterization of `validate_gtc_order_args`: it succeeds exactly when
every check of the source passes. -/
theorem validate_gtc_ok_iff (token_id : String) (price size : ℚ) (side : Side)
    (taker : Option String) (expiration : Option Int) (nonce : Option Int) :
    validate_gtc_order_args token_id price size side taker expiration nonce
        = .ok () ↔
      (token_id ≠ "" ∧ token_id ≠ "0" ∧ pyMatchDigits token_id = true ∧
        (∀ a ∈ taker, is_valid_address a = true) ∧
        (∀ e ∈ expiration, 0 ≤ e) ∧ (∀ n ∈ nonce, 0 ≤ n) ∧
        0 ≤ price ∧ price ≤ 1 ∧ 0 < size) := by
  rw [validate_gtc_order_args, runChecks_ok_iff]
  simp only [List.mem_cons, List.not_mem_nil, or_false, forall_eq_or_imp,
    forall_eq, decide_eq_false_iff_not, not_or, not_lt, not_le, ne_eq,
    Bool.not_eq_true', Bool.not_eq_false', optBadAddress_false_iff,
    optNegativeInt_false_iff, and_assoc]

/-- Decimal representation of the Python float `maker_amount` argument: the
number `mantissa / 10 ^ scale`.  The FOK validator inspects `str(maker_amount)`;
CPython renders a float from its shortest round-tripping decimal digits, in
plain decimal form when the decimal exponent lies in `[-4, 16)` and in
scientific notation otherwise (`str(0.0001) = '0.0001'` but
`str(0.00001) = '1e-05'`, `str(1e16) = '1e+16'`).  `pyFloatStr` below models
both forms.  The amount is taken to be exactly the decimal the caller wrote;
shortest-repr binary-float artifacts and the 17-significant-digit cap of a
double's shortest repr are outside the model (they do not move the amounts at
issue across the guard's cases). -/
structure Dec where
  mantissa : Int
  scale : Nat
  deriving DecidableEq

/-- Numeric value of a `Dec`. -/
def Dec.toRat (d : Dec) : ℚ := d.mantissa / (10 : ℚ) ^ d.scale

/-- Strips trailing zero fraction digits: canonicalizes `(mantissa, scale)` so
that either the scale is zero or the mantissa is not divisible by 10. -/
def stripZeros : Int → Nat → Int × Nat
  | m, 0 => (m, 0)
  | m, s + 1 => if m % 10 = 0 then stripZeros (m / 10) s else (m, s + 1)

/-- Number of digits after the decimal point when the number is written in
shortest plain decimal form (0 for integers). -/
def Dec.places (d : Dec) : Nat := (stripZeros d.mantissa d.scale).2

/-- The ASCII digit character for `d < 10`. -/
def digitChar (d : Nat) : Char := Char.ofNat (48 + d)

/-- Fuel-driven digit extraction (structural recursion so that concrete values
reduce in the kernel); `fuel > n` always suffices since `n` shrinks by 10. -/
def natCharsAux : Nat → Nat → List Char
  | 0, _ => []
  | fuel + 1, n =>
    if n < 10 then [digitChar n]
    else natCharsAux fuel (n / 10) ++ [digitChar (n % 10)]

/-- Decimal digit characters of a natural number, most significant first. -/
def natChars (n : Nat) : List Char := natCharsAux (n + 1) n

/-- Fuel-driven removal of trailing decimal zeros from a natural number
(structural recursion so that concrete values reduce in the kernel). -/
def stripTrailingZerosAux : Nat → Nat → Nat
  | 0, n => n
  | fuel + 1, n =>
    if n % 10 = 0 ∧ n ≠ 0 then stripTrailingZerosAux fuel (n / 10) else n

/-- The significant digits of `n` as a number: `n` with all trailing decimal
zeros removed — the digit string CPython's shortest repr uses as the
scientific-notation mantissa. -/
def sciDigits (n : Nat) : Nat := stripTrailingZerosAux n n

/-- The suffix CPython appends after `e` in scientific notation: the
exponent's sign and its digits zero-padded to at least two (`-05`, `+16`). -/
def expChars (e : Int) : List Char :=
  (if e < 0 then '-' else '+') ::
    (List.replicate (2 - (natChars e.natAbs).length) '0' ++ natChars e.natAbs)

/-- Decimal exponent `floor(log10 |x|)` of the value of `d`, computed from the
canonical digit count.  CPython renders the float in plain decimal form
exactly when this lies in `[-4, 16)`, in scientific notation otherwise. -/
def Dec.decExp (d : Dec) : Int :=
  ((natChars (stripZeros d.mantissa d.scale).1.natAbs).length : Int) - 1
    - ((stripZeros d.mantissa d.scale).2 : Int)

/-- Whether CPython `str()` renders the value of `d` in plain decimal form. -/
def Dec.plainForm (d : Dec) : Bool :=
  decide (-4 ≤ d.decExp ∧ d.decExp < 16)

/-- The scientific-notation mantissa digits of `d`, as a number. -/
def Dec.sciMantissa (d : Dec) : Nat :=
  sciDigits (stripZeros d.mantissa d.scale).1.natAbs

/-- Character list of the modelled CPython `str()` of the float `maker_amount`
(see `Dec`).  Plain decimal form (decimal exponent in `[-4, 16)`): the
shortest decimal rendering, with a trailing `.0` for integral values, as
CPython prints floats.  Otherwise scientific notation: the mantissa's first
digit, then — only when more digits follow — a dot and the remaining digits,
then `e` and the two-digit-padded signed exponent (`1e-05`, `1.5e-05`,
`1.23e+16`). -/
def pyFloatChars (d : Dec) : List Char :=
  let ms := stripZeros d.mantissa d.scale
  let sign : List Char := if ms.1 < 0 then ['-'] else []
  let n := ms.1.natAbs
  let e : Int := ((natChars n).length : Int) - 1 - (ms.2 : Int)
  if -4 ≤ e ∧ e < 16 then
    if ms.2 = 0 then sign ++ natChars n ++ ['.', '0']
    else
      let fracDigits := natChars (n % 10 ^ ms.2)
      sign ++ natChars (n / 10 ^ ms.2) ++ '.' ::
        (List.replicate (ms.2 - fracDigits.length) '0' ++ fracDigits)
  else
    let sd := natChars (sciDigits n)
    if sd.length ≤ 1 then sign ++ sd ++ 'e' :: expChars e
    else sign ++ sd.take 1 ++ '.' :: (sd.drop 1 ++ 'e' :: expChars e)

/-- Modelled CPython `str()` of the float `maker_amount` (see `Dec`). -/
def pyFloatStr (d : Dec) : String := String.mk (pyFloatChars d)

/-- Python `amount_str.find(".")`: index of the first dot, `none` for the
source's `-1`. -/
def findDotIdx : List Char → Option Nat
  | [] => none
  | c :: rest => if c == '.' then some 0 else (findDotIdx rest).map (· + 1)

/-- Source decimal-precision guard of `validate_fok_order_args`: compute
`str(maker_amount)`, find the dot, and flag more than two digits after it. -/
def fokDecimalsBad (maker_amount : Dec) : Bool :=
  let amount_str := (pyFloatStr maker_amount).toList
  (findDotIdx amount_str).elim false
    (fun idx => decide (amount_str.length - idx - 1 > 2))

theorem digitChar_isDigit (d : Nat) (h : d < 10) : (digitChar d).isDigit = true := by
  interval_cases d <;> decide

theorem natCharsAux_digits (fuel : Nat) :
    ∀ n, ∀ c ∈ natCharsAux fuel n, c.isDigit = true := by
  induction fuel with
  | zero => simp [natCharsAux]
  | succ fuel ih =>
    intro n c hc
    rw [natCharsAux] at hc
    split_ifs at hc with h
    · simp only [List.mem_singleton] at hc
      subst hc
      exact digitChar_isDigit n h
    · rcases List.mem_append.mp hc with hc | hc
      · exact ih (n / 10) c hc
      · simp only [List.mem_singleton] at hc
        subst hc
        exact digitChar_isDigit _ (Nat.mod_lt _ (by omega))

theorem natChars_digits (n : Nat) : ∀ c ∈ natChars n, c.isDigit = true :=
  natCharsAux_digits (n + 1) n

theorem natCharsAux_length_le (fuel : Nat) :
    ∀ n k, n < 10 ^ k → 1 ≤ k → (natCharsAux fuel n).length ≤ k := by
  induction fuel with
  | zero => simp [natCharsAux]
  | succ fuel ih =>
    intro n k hn hk
    rw [natCharsAux]
    split_ifs with h
    · simpa using hk
    · have hk2 : 2 ≤ k := by
        by_contra hcon
        have hk1 : k = 1 := by omega
        subst hk1
        simp at hn
        omega
      have hdiv : n / 10 < 10 ^ (k - 1) := by
        rw [Nat.div_lt_iff_lt_mul (by omega)]
        calc n < 10 ^ k := hn
        _ = 10 ^ (k - 1) * 10 := by
          rw [← pow_succ]
          congr 1
          omega
      have := ih (n / 10) (k - 1) hdiv (by omega)
      simp only [List.length_append, List.length_singleton]
      omega

theorem natChars_length_le (n k : Nat) (hn : n < 10 ^ k) (hk : 1 ≤ k) :
    (natChars n).length ≤ k :=
  natCharsAux_length_le (n + 1) n k hn hk

theorem findDotIdx_append (xs ys : List Char)
    (h : ∀ c ∈ xs, (c == '.') = false) :
    findDotIdx (xs ++ '.' :: ys) = some xs.length := by
  induction xs with
  | nil => simp [findDotIdx]
  | cons a as ih =>
    have ha := h a (by simp)
    have hrest : ∀ c ∈ as, (c == '.') = false := fun c hc => h c (by simp [hc])
    rw [List.cons_append, findDotIdx, if_neg (by simp [ha]), ih hrest]
    rfl

theorem dot_not_in_digits (l : List Char) (hd : ∀ c ∈ l, c.isDigit = true) :
    ∀ c ∈ l, (c == '.') = false := by
  intro c hc
  have hdig := hd c hc
  by_contra hne
  rw [Bool.not_eq_false, beq_iff_eq] at hne
  subst hne
  simp at hdig

theorem findDotIdx_eq_none (l : List Char)
    (h : ∀ c ∈ l, (c == '.') = false) : findDotIdx l = Option.none := by
  induction l with
  | nil => rfl
  | cons a as ih =>
    rw [findDotIdx, if_neg (by simp [h a (by simp)]),
      ih (fun c hc => h c (by simp [hc]))]
    rfl

theorem natCharsAux_ne_nil (fuel n : Nat) : natCharsAux (fuel + 1) n ≠ [] := by
  rw [natCharsAux]
  split_ifs <;> simp

theorem natChars_ne_nil (n : Nat) : natChars n ≠ [] :=
  natCharsAux_ne_nil n n

theorem natChars_lt_ten (n : Nat) (h : n < 10) :
    natChars n = [digitChar n] := by
  rw [natChars, natCharsAux, if_pos h]

theorem natChars_length_ge_two (m : Nat) (h : 10 ≤ m) :
    2 ≤ (natChars m).length := by
  obtain ⟨m2, rfl⟩ : ∃ m2, m = m2 + 1 := ⟨m - 1, by omega⟩
  rw [natChars, natCharsAux, if_neg (by omega)]
  have hne := natCharsAux_ne_nil m2 ((m2 + 1) / 10)
  have h1 : 1 ≤ (natCharsAux (m2 + 1) ((m2 + 1) / 10)).length :=
    List.length_pos.mpr hne
  simp only [List.length_append, List.length_singleton]
  omega

theorem digitChar_ne_dot (x : Nat) (hx : x < 10) :
    (digitChar x == '.') = false := by
  interval_cases x <;> decide

theorem expChars_no_dot (e : Int) : ∀ c ∈ expChars e, (c == '.') = false := by
  intro c hc
  rw [expChars] at hc
  rcases List.mem_cons.mp hc with hc | hc
  · subst hc
    split_ifs <;> decide
  · rcases List.mem_append.mp hc with hc | hc
    · rw [List.eq_of_mem_replicate hc]
      decide
    · exact dot_not_in_digits _ (natChars_digits _) c hc

theorem expChars_length_ge_three (e : Int) : 3 ≤ (expChars e).length := by
  rw [expChars]
  have h1 : 1 ≤ (natChars e.natAbs).length :=
    List.length_pos.mpr (natChars_ne_nil _)
  simp only [List.length_cons, List.length_append, List.length_replicate]
  omega

/-- Shape of the rendered amount.  Either it contains a dot — with a dot-free
prefix and a suffix that has the fraction-digit count in plain decimal form,
and at least 5 characters in multi-digit-mantissa scientific form — or it is
entirely dot-free, which happens exactly for scientific notation with a
single-digit mantissa. -/
theorem pyFloatChars_shape (d : Dec) :
    (∃ pre post, pyFloatChars d = pre ++ '.' :: post ∧
        (∀ c ∈ pre, (c == '.') = false) ∧
        ((d.plainForm = true ∧
            post.length = (if d.places = 0 then 1 else d.places)) ∨
          (d.plainForm = false ∧ 10 ≤ d.sciMantissa ∧ 5 ≤ post.length))) ∨
      ((∀ c ∈ pyFloatChars d, (c == '.') = false) ∧ d.plainForm = false ∧
        d.sciMantissa < 10) := by
  rcases hms : stripZeros d.mantissa d.scale with ⟨m, s⟩
  have hplaces : d.places = s := by rw [Dec.places, hms]
  have hplain : d.plainForm = decide
      (-4 ≤ (((natChars m.natAbs).length : Int) - 1 - (s : Int)) ∧
        (((natChars m.natAbs).length : Int) - 1 - (s : Int)) < 16) := by
    rw [Dec.plainForm, Dec.decExp, hms]
  have hsci : d.sciMantissa = sciDigits m.natAbs := by
    rw [Dec.sciMantissa, hms]
  have hsignDot : ∀ c ∈ (if m < 0 then ['-'] else ([] : List Char)),
      (c == '.') = false := by
    split_ifs <;> simp
  by_cases hE : -4 ≤ (((natChars m.natAbs).length : Int) - 1 - (s : Int)) ∧
      (((natChars m.natAbs).length : Int) - 1 - (s : Int)) < 16
  · left
    have hpl : d.plainForm = true := by
      rw [hplain]
      exact decide_eq_true hE
    rcases Nat.eq_zero_or_pos s with h0 | hpos
    · subst h0
      refine ⟨(if m < 0 then ['-'] else []) ++ natChars m.natAbs, ['0'],
        ?_, ?_, ?_⟩
      · rw [pyFloatChars]
        simp only [hms]
        rw [if_pos hE]
        simp
      · intro c hc
        rcases List.mem_append.mp hc with hc | hc
        · exact hsignDot c hc
        · exact dot_not_in_digits _ (natChars_digits _) c hc
      · left
        exact ⟨hpl, by simp [hplaces]⟩
    · refine ⟨(if m < 0 then ['-'] else []) ++ natChars (m.natAbs / 10 ^ s),
        List.replicate (s - (natChars (m.natAbs % 10 ^ s)).length) '0' ++
          natChars (m.natAbs % 10 ^ s), ?_, ?_, ?_⟩
      · simp only [pyFloatChars, hms, if_pos hE, if_neg (by omega : ¬s = 0)]
      · intro c hc
        rcases List.mem_append.mp hc with hc | hc
        · exact hsignDot c hc
        · exact dot_not_in_digits _ (natChars_digits _) c hc
      · left
        refine ⟨hpl, ?_⟩
        have hlt : m.natAbs % 10 ^ s < 10 ^ s := Nat.mod_lt _ (by positivity)
        have hle := natChars_length_le (m.natAbs % 10 ^ s) s hlt (by omega)
        rw [hplaces, if_neg (by omega : ¬s = 0)]
        simp only [List.length_append, List.length_replicate]
        omega
  · have hpl : d.plainForm = false := by
      rw [hplain]
      exact decide_eq_false hE
    by_cases hsd : sciDigits m.natAbs < 10
    · right
      refine ⟨?_, hpl, by rw [hsci]; omega⟩
      have hnc := natChars_lt_ten _ hsd
      have hlen1 : (natChars (sciDigits m.natAbs)).length ≤ 1 := by
        rw [hnc]
        simp
      intro c hc
      rw [pyFloatChars] at hc
      simp only [hms, if_neg hE, if_pos hlen1] at hc
      rcases List.mem_append.mp hc with hc | hc
      · rcases List.mem_append.mp hc with hc | hc
        · exact hsignDot c hc
        · rw [hnc] at hc
          simp only [List.mem_singleton] at hc
          subst hc
          exact digitChar_ne_dot _ hsd
      · rcases List.mem_cons.mp hc with hc | hc
        · subst hc
          decide
        · exact expChars_no_dot _ c hc
    · left
      have hge : 10 ≤ sciDigits m.natAbs := by omega
      have hlen2 : 2 ≤ (natChars (sciDigits m.natAbs)).length :=
        natChars_length_ge_two _ hge
      have hnotle : ¬(natChars (sciDigits m.natAbs)).length ≤ 1 := by omega
      refine ⟨(if m < 0 then ['-'] else []) ++
          (natChars (sciDigits m.natAbs)).take 1,
        (natChars (sciDigits m.natAbs)).drop 1 ++ 'e' ::
          expChars (((natChars m.natAbs).length : Int) - 1 - (s : Int)),
        ?_, ?_, ?_⟩
      · rw [pyFloatChars]
        simp only [hms, if_neg hE, if_neg hnotle]
      · intro c hc
        rcases List.mem_append.mp hc with hc | hc
        · exact hsignDot c hc
        · exact dot_not_in_digits _ (natChars_digits _) c
            (List.mem_of_mem_take hc)
      · right
        refine ⟨hpl, by rw [hsci]; omega, ?_⟩
        have h3 := expChars_length_ge_three
          (((natChars m.natAbs).length : Int) - 1 - (s : Int))
        simp only [List.length_append, List.length_cons, List.length_drop]
        omega

/-- The decimal-precision guard flags exactly: plain-decimal renderings with
more than two fraction digits, and scientific renderings with a multi-digit
mantissa (where the dot is followed by the rest of the mantissa plus the whole
exponent suffix).  A single-digit scientific mantissa renders with no dot at
all, so `find(".")` returns -1 and the guard never fires. -/
theorem fokDecimalsBad_iff (d : Dec) :
    fokDecimalsBad d = true ↔
      ((d.plainForm = true ∧ 2 < d.places) ∨
        (d.plainForm = false ∧ 10 ≤ d.sciMantissa)) := by
  have hstr : (pyFloatStr d).toList = pyFloatChars d := rfl
  rcases pyFloatChars_shape d with
    ⟨pre, post, hsplit, hpre, hcase⟩ | ⟨hnodot, hpl, hsd⟩
  · have hfind : findDotIdx ((pyFloatStr d).toList) = some pre.length := by
      rw [hstr, hsplit]
      exact findDotIdx_append _ _ hpre
    simp only [fokDecimalsBad]
    rw [hfind]
    simp only [Option.elim, decide_eq_true_eq]
    rw [hstr, hsplit]
    simp only [List.length_append, List.length_cons]
    have hdec : pre.length + (post.length + 1) - pre.length - 1
        = post.length := by omega
    rw [hdec]
    rcases hcase with ⟨hpl, hlen⟩ | ⟨hpl, hge, hlen⟩
    · simp only [hpl, true_and, Bool.true_eq_false, false_and, or_false]
      split_ifs at hlen <;> omega
    · simp only [hpl, Bool.false_eq_true, false_and, false_or, true_and]
      constructor
      · intro _
        exact hge
      · intro _
        omega
  · have hfind : findDotIdx ((pyFloatStr d).toList) = Option.none := by
      rw [hstr]
      exact findDotIdx_eq_none _ hnodot
    simp only [fokDecimalsBad]
    rw [hfind]
    simp only [Option.elim, hpl, Bool.false_eq_true, false_and, false_or,
      true_and]
    constructor
    · intro hcon
      cases hcon
    · intro hcon
      omega

/-- Positivity of the amount is positivity of the mantissa. -/
theorem Dec.toRat_pos_iff (d : Dec) : 0 < d.toRat ↔ 0 < d.mantissa := by
  rw [Dec.toRat, div_pos_iff]
  have h10 : (0 : ℚ) < 10 ^ d.scale := by positivity
  constructor
  · rintro (⟨h, _⟩ | ⟨_, h⟩)
    · exact_mod_cast h
    · linarith
  · intro h
    exact Or.inl ⟨by exact_mod_cast h, h10⟩

/-- Embeds `validator.py` `validate_fok_order_args` as the source's sequence of
raise-on-condition checks, in source order. The
`isinstance(maker_amount, (int, float))` guard is vacuous in the typed
embedding. -/
def validate_fok_order_args (token_id : String) (maker_amount : Dec)
    (side : Side) (taker : Option String) (expiration : Option Int)
    (nonce : Option Int) : Except String Unit :=
  runChecks [
    (decide (token_id = ""), "TokenId is required"),
    (decide (token_id = "0"), "TokenId cannot be zero"),
    (!pyMatchDigits token_id, s!"Invalid tokenId format: {token_id}"),
    (optBadAddress taker, "Invalid taker address"),
    (optNegativeInt expiration, "Invalid expiration format"),
    (optNegativeInt nonce, "Invalid nonce"),
    (decide (maker_amount.toRat ≤ 0), "Amount must be positive"),
    (fokDecimalsBad maker_amount, "Amount must have max 2 decimal places")]

/-- Characterization of `validate_fok_order_args`. -/
theorem validate_fok_ok_iff (token_id : String) (maker_amount : Dec)
    (side : Side) (taker : Option String) (expiration : Option Int)
    (nonce : Option Int) :
    validate_fok_order_args token_id maker_amount side taker expiration nonce
        = .ok () ↔
      (token_id ≠ "" ∧ token_id ≠ "0" ∧ pyMatchDigits token_id = true ∧
        (∀ a ∈ taker, is_valid_address a = true) ∧
        (∀ e ∈ expiration, 0 ≤ e) ∧ (∀ n ∈ nonce, 0 ≤ n) ∧
        0 < maker_amount.toRat ∧ fokDecimalsBad maker_amount = false) := by
  rw [validate_fok_order_args, runChecks_ok_iff]
  simp only [List.mem_cons, List.not_mem_nil, or_false, forall_eq_or_imp,
    forall_eq, decide_eq_false_iff_not, not_or, not_lt, not_le, ne_eq,
    Bool.not_eq_true', Bool.not_eq_false', optBadAddress_false_iff,
    optNegativeInt_false_iff, and_assoc]

/-- Order data shape exactly as `validator.py` consumes it (the `types/orders.py`
module itself is not under `src`; field names and types follow the validator's
accesses: integer amounts and counters, string addresses and token id, an
optional rational price). -/
structure UnsignedOrder where
  salt : Int
  maker : String
  signer : String
  taker : String
  token_id : String
  maker_amount : Int
  taker_amount : Int
  expiration : Int
  nonce : Int
  fee_rate_bps : Int
  side : Int
  signature_type : Int
  price : Option ℚ
  deriving DecidableEq

/-- A signed order is an unsigned order plus the signature string. -/
structure SignedOrder extends UnsignedOrder where
  signature : String
  deriving DecidableEq

/-- Source check `order.price is not None` and then `price < 0 or price > 1`
(its `isinstance` half is vacuous in the typed embedding). -/
def optPriceOutOfRange (p : Option ℚ) : Bool :=
  match p with
  | some q => decide (q < 0 ∨ 1 < q)
  | none => false

theorem optPriceOutOfRange_false_iff (p : Option ℚ) :
    optPriceOutOfRange p = false ↔ ∀ q ∈ p, 0 ≤ q ∧ q ≤ 1 := by
  cases p <;> simp [optPriceOutOfRange, not_or, not_lt]

/-- Source check `order.side not in (0, 1)`. -/
def sideNotZeroOne (side : Int) : Bool :=
  decide (side ≠ 0 ∧ side ≠ 1)

theorem sideNotZeroOne_false_iff (side : Int) :
    sideNotZeroOne side = false ↔ (side = 0 ∨ side = 1) := by
  simp [sideNotZeroOne]
  tauto

/-- Embeds `validator.py` `validate_unsigned_order`, check for check and in
source order.  `if not order.maker_amount or order.maker_amount == 0` collapses
to an equality test with zero for an integer amount; the later
`not isinstance(..., int) or ... <= 0` checks keep only their numeric half. -/
def validate_unsigned_order (o : UnsignedOrder) : Except String Unit :=
  runChecks [
    (!is_valid_address o.maker, s!"Invalid maker address: {o.maker}"),
    (!is_valid_address o.signer, s!"Invalid signer address: {o.signer}"),
    (!is_valid_address o.taker, s!"Invalid taker address: {o.taker}"),
    (decide (o.maker_amount = 0), "MakerAmount must be greater than zero"),
    (decide (o.taker_amount = 0), "TakerAmount must be greater than zero"),
    (decide (o.maker_amount ≤ 0), "Invalid makerAmount"),
    (decide (o.taker_amount ≤ 0), "Invalid takerAmount"),
    (!pyMatchDigits o.token_id, s!"Invalid tokenId format: {o.token_id}"),
    (decide (o.expiration < 0), "Invalid expiration format"),
    (decide (o.salt ≤ 0), "Invalid salt"),
    (decide (o.nonce < 0), "Invalid nonce"),
    (decide (o.fee_rate_bps < 0), "Invalid feeRateBps"),
    (sideNotZeroOne o.side, "Invalid side. Must be 0 (BUY) or 1 (SELL)"),
    (decide (o.signature_type < 0), "Invalid signatureType"),
    (optPriceOutOfRange o.price, "Price must be between 0 and 1")]

/-- Characterization of `validate_unsigned_order`: it succeeds exactly when
every structural check of the source passes.  Note the absence of any
`token_id ≠ "0"` condition: the source function never performs that check. -/
theorem validate_unsigned_ok_iff (o : UnsignedOrder) :
    validate_unsigned_order o = .ok () ↔
      (is_valid_address o.maker = true ∧ is_valid_address o.signer = true ∧
        is_valid_address o.taker = true ∧ ¬o.maker_amount = 0 ∧
        ¬o.taker_amount = 0 ∧ 0 < o.maker_amount ∧ 0 < o.taker_amount ∧
        pyMatchDigits o.token_id = true ∧ 0 ≤ o.expiration ∧ 0 < o.salt ∧
        0 ≤ o.nonce ∧ 0 ≤ o.fee_rate_bps ∧ (o.side = 0 ∨ o.side = 1) ∧
        0 ≤ o.signature_type ∧ ∀ q ∈ o.price, 0 ≤ q ∧ q ≤ 1) := by
  rw [validate_unsigned_order, runChecks_ok_iff]
  simp only [List.mem_cons, List.not_mem_nil, or_false, forall_eq_or_imp,
    forall_eq, decide_eq_false_iff_not, not_lt, not_le, ne_eq,
    Bool.not_eq_true', Bool.not_eq_false', optPriceOutOfRange_false_iff,
    sideNotZeroOne_false_iff, and_assoc]

/-- The signature shape required by `validate_signed_order`: non-empty,
`0x`-prefixed, exactly 132 characters, and a `^0x[0-9a-fA-F]{130}$` match. -/
def sig_shape (s : String) : Bool :=
  decide (s ≠ "") && pyStartsWith s "0x" && decide (s.length = 132)
    && pyMatchHex s 130

/-- Embeds `validator.py` `validate_signed_order`: the unsigned checks first,
then the four signature checks in source order. -/
def validate_signed_order (o : SignedOrder) : Except String Unit :=
  match validate_unsigned_order o.toUnsignedOrder with
  | .error m => .error m
  | .ok _ =>
    runChecks [
      (decide (o.signature = ""), "Signature is required"),
      (!pyStartsWith o.signature "0x", "Signature must start with 0x"),
      (decide (o.signature.length ≠ 132),
        s!"Invalid signature length: {o.signature.length}. Expected 132 characters."),
      (!pyMatchHex o.signature 130, "Signature must be valid hex string")]

/-- Characterization of `validate_signed_order`: the unsigned checks plus the
signature-shape checks, and nothing else, decide acceptance. -/
theorem validate_signed_ok_iff (o : SignedOrder) :
    validate_signed_order o = .ok () ↔
      (validate_unsigned_order o.toUnsignedOrder = .ok () ∧
        sig_shape o.signature = true) := by
  rw [validate_signed_order]
  cases h : validate_unsigned_order o.toUnsignedOrder with
  | error m => simp [h]
  | ok u =>
    rw [runChecks_ok_iff]
    simp only [List.mem_cons, List.not_mem_nil, or_false, forall_eq_or_imp,
      forall_eq, decide_eq_false_iff_not, ne_eq, not_not,
      Bool.not_eq_true', Bool.not_eq_false', sig_shape, Bool.and_eq_true,
      decide_eq_true_eq, true_iff, iff_true, true_and, and_assoc]

/-- Python value shapes that can appear as a decoded JSON response body (or the
raw text fallback): the shapes `http_client.py` inspects. -/
inductive PyVal where
  | none
  | boolV (b : Bool)
  | intV (n : Int)
  | str (s : String)
  | list (xs : List PyVal)
  | dict (xs : List (String × PyVal))

/-- Python truthiness for the value shapes above. -/
def pyTruthy : PyVal → Bool
  | .none => false
  | .boolV b => b
  | .intV n => n != 0
  | .str s => decide (s ≠ "")
  | .list xs => !xs.isEmpty
  | .dict xs => !xs.isEmpty

/-- Python `dict.get(k)` on the insertion-ordered pair list: first matching key. -/
def pyGet (xs : List (String × PyVal)) (k : String) : Option PyVal :=
  (xs.find? (fun kv => kv.1 == k)).map (fun kv => kv.2)

/-- Python `repr` for the modelled value shapes, used by `str()` on non-strings.
String quoting is modelled with a single quote always (CPython switches to
double quotes when the text contains a single quote; no claim inspects message
text, so that nuance is out of model). -/
def pyRepr : PyVal → String
  | .none => "None"
  | .boolV true => "True"
  | .boolV false => "False"
  | .intV n => toString n
  | .str s => (Char.ofNat 39).toString ++ s ++ (Char.ofNat 39).toString
  | .list xs => "[" ++ String.intercalate ", " (xs.attach.map
      (fun v => pyRepr v.1)) ++ "]"
  | .dict xs => "\x7b" ++ String.intercalate ", " (xs.attach.map
      (fun kv => (Char.ofNat 39).toString ++ kv.1.1 ++ (Char.ofNat 39).toString
        ++ ": " ++ pyRepr kv.1.2)) ++ "\x7d"
decreasing_by
  all_goals simp_wf
  · have := List.sizeOf_lt_of_mem v.2
    omega
  · have h := List.sizeOf_lt_of_mem kv.2
    obtain ⟨⟨k1, v1⟩, hkv⟩ := kv
    simp only [Prod.mk.sizeOf_spec] at h ⊢
    omega

/-- Python `str()`: identity on strings, `repr` otherwise. -/
def pyStr (v : PyVal) : String :=
  match v with
  | .str s => s
  | v => pyRepr v

/-- Minimal model of `json.dumps` (CPython default separators); string escaping
is modelled for quote and backslash only, which the claims never inspect. -/
def jsonEscape (s : String) : String :=
  String.mk ((s.toList.map
    (fun c => if c = '"' then ['\\', '"']
              else if c = '\\' then ['\\', '\\'] else [c])).join)

/-- Python `json.dumps` for the modelled value shapes. -/
def pyDumps : PyVal → String
  | .none => "null"
  | .boolV true => "true"
  | .boolV false => "false"
  | .intV n => toString n
  | .str s => "\"" ++ jsonEscape s ++ "\""
  | .list xs => "[" ++ String.intercalate ", " (xs.attach.map
      (fun v => pyDumps v.1)) ++ "]"
  | .dict xs => "\x7b" ++ String.intercalate ", " (xs.attach.map
      (fun kv => "\"" ++ jsonEscape kv.1.1 ++ "\": " ++ pyDumps kv.1.2))
      ++ "\x7d"
decreasing_by
  all_goals simp_wf
  · have := List.sizeOf_lt_of_mem v.2
    omega
  · have h := List.sizeOf_lt_of_mem kv.2
    obtain ⟨⟨k1, v1⟩, hkv⟩ := kv
    simp only [Prod.mk.sizeOf_spec] at h ⊢
    omega

/-- One entry of the array-shaped `message` field: a dict is flattened to
`"k: v"` pairs of its truthy values joined by `", "`; anything else is
`str(err)` (source lines 150-156). -/
def joinedDetailMsg (err : PyVal) : String :=
  match err with
  | .dict items =>
    String.intercalate ", " ((items.filter (fun kv => pyTruthy kv.2)).map
      (fun kv => kv.1 ++ ": " ++ pyStr kv.2))
  | e => pyStr e

/-- Embeds the message-extraction logic of
`HttpClient._handle_error_response` (source lines 148-167).  The result is the
Python object bound to `message` (usually a string, but the `or` chain can
select a non-string field value, which Python keeps as is). -/
def extract_message (data : PyVal) : PyVal :=
  match data with
  | .dict items =>
    (match pyGet items "message" with
     | some (.list msgs) =>
       let joined := String.intercalate " | " (msgs.map joinedDetailMsg)
       if joined ≠ "" then .str joined
       else
         (match pyGet items "error" with
          | some e => e
          | Option.none => .str (pyStr (.dict items)))
     | _ =>
       let m1 := (pyGet items "message").getD .none
       if pyTruthy m1 then m1
       else
         let m2 := (pyGet items "error").getD .none
         if pyTruthy m2 then m2
         else
           let m3 := (pyGet items "msg").getD .none
           if pyTruthy m3 then m3
           else .str (pyDumps (.dict items)))
  | d => .str (pyStr d)

/-- The Python class of the produced error: `RateLimitError`,
`AuthenticationError`, or plain `APIError`.  None of the three is a subclass of
another except through `APIError` itself. -/
inductive ErrorKind where
  | rateLimit
  | authentication
  | generic
  deriving DecidableEq

/-- Embeds `errors.py`: an `APIError` (or subclass, per `kind`) with the context
fields its constructor stores. -/
structure APIError where
  kind : ErrorKind
  message : PyVal
  status_code : Int
  response_data : PyVal
  url : String
  method : String

/-- Embeds `HttpClient._handle_error_response`: extract the message, pick the
class by status (429 rate limit; 401/403 authentication; otherwise plain), and
carry message, status, raw data, url and method.  The `logger.debug` side
effect has no bearing on the returned error. -/
def handle_error_response (status : Int) (data : PyVal) (url method : String) :
    APIError :=
  { kind :=
      if status = 429 then .rateLimit
      else if status = 401 ∨ status = 403 then .authentication
      else .generic,
    message := extract_message data,
    status_code := status,
    response_data := data,
    url := url,
    method := method }

/-- The three request methods of `HttpClient` that decode a body and map
failures. -/
inductive HttpMethod where
  | get
  | post
  | delete
  deriving DecidableEq

/-- The method-name string each request method passes to
`_handle_error_response`. -/
def methodName : HttpMethod → String
  | .get => "GET"
  | .post => "POST"
  | .delete => "DELETE"

/-- Common response tail of `HttpClient.get` / `post` / `delete`: with the
decoded body `data` and the response status, raise the mapped error when
`status >= 400`, otherwise return the body.  `path` is what the source passes
as the `url` argument of `_handle_error_response`. -/
def http_response_result (m : HttpMethod) (status : Int) (data : PyVal)
    (path : String) : Except APIError PyVal :=
  if 400 ≤ status then
    .error (handle_error_response status data path (methodName m))
  else .ok data

/-- Exception shapes distinguished by the retry decorator in `client.py`.  The
`RateLimitError` class (imported from the repo's `exceptions` module, which is
not under `src`) is modelled with the `status_code` attribute that `client.py`
passes positionally (`RateLimitError(message, response.status)`) and that the
decorator reads back via `getattr(e, 'status_code', ...)`.
`aiohttp.ClientResponseError` carries `status`.  The two timeout classes carry
no status.  Any other exception is `generic`, inspected only through `str(e)`;
the `IndexError("list index out of range")` that `delays[-1]` raises on an
empty list is such a generic exception. -/
inductive PyExc where
  | rateLimitError (status_code : Int) (msg : String)
  | clientResponseError (status : Int) (msg : String)
  | serverTimeoutError (msg : String)
  | asyncioTimeoutError (msg : String)
  | generic (msg : String)
  deriving DecidableEq

/-- The decision the decorator's except clauses make for a raised exception:
`true` means record it and keep retrying, `false` means re-raise immediately.
First clause (`RateLimitError`, `aiohttp.ClientResponseError`): retry iff the
carried status is 429.  Timeout clause (`aiohttp.ServerTimeoutError`,
`asyncio.TimeoutError`): never retry.  Final `except Exception` clause: retry
iff `str(e)` contains both `"429"` and `"Too Many Requests"`. -/
def excRetryable : PyExc → Bool
  | .rateLimitError sc _ => sc == 429
  | .clientResponseError st _ => st == 429
  | .serverTimeoutError _ => false
  | .asyncioTimeoutError _ => false
  | .generic msg =>
    strContainsSub msg "429" && strContainsSub msg "Too Many Requests"

/-- `delays[attempt] if attempt < len(delays) else delays[-1]`; on an empty
list Python's `delays[-1]` raises `IndexError("list index out of range")`. -/
def pyDelayAt (delays : List Int) (attempt : Nat) : Except PyExc Int :=
  if h : attempt < delays.length then .ok (delays.get ⟨attempt, h⟩)
  else
    match delays.getLast? with
    | some d => .ok d
    | Option.none => .error (.generic "list index out of range")

/-- Observable result of one wrapped call: the returned value or re-raised
exception, the number of times the wrapped operation was invoked, and the
sleep durations performed, in order. -/
structure RetryResult (α : Type) where
  outcome : Except PyExc α
  calls : Nat
  sleeps : List Int

/-- The retry loop of `retry_on_rate_limit` (`for attempt in range(max_retries)`
in `client.py`), entered after a retryable first failure: `remaining` counts the
loop iterations left, `attempt` is the loop index, `last` the pending
`last_exception`, `calls` the invocations so far.  The delay lookup sits inside
the loop's `try`, so an `IndexError` from it flows through the same except
clauses as a failure of the operation itself; when the loop ends, the pending
exception is re-raised. -/
def retryLoop (op : Nat → Except PyExc α) (delays : List Int) :
    Nat → Nat → PyExc → Nat → List Int → RetryResult α
  | 0, _attempt, last, calls, sleeps => ⟨.error last, calls, sleeps⟩
  | remaining + 1, attempt, last, calls, sleeps =>
    match pyDelayAt delays attempt with
    | .error e =>
      if excRetryable e then
        retryLoop op delays remaining (attempt + 1) e calls sleeps
      else ⟨.error e, calls, sleeps⟩
    | .ok d =>
      match op calls with
      | .ok v => ⟨.ok v, calls + 1, sleeps ++ [d]⟩
      | .error e =>
        if excRetryable e then
          retryLoop op delays remaining (attempt + 1) e (calls + 1)
            (sleeps ++ [d])
        else ⟨.error e, calls + 1, sleeps ++ [d]⟩

/-- Embeds the `retry_on_rate_limit` decorator of `client.py` applied to an
async operation: `op n` records the outcome of the n-th invocation of the
wrapped function.  Source defaults are `max_retries = 2`, `delays = [5, 10]`.
`asyncio.sleep` durations are recorded, not performed. -/
def retry_on_rate_limit (max_retries : Nat) (delays : List Int)
    (op : Nat → Except PyExc α) : RetryResult α :=
  match op 0 with
  | .ok v => ⟨.ok v, 1, []⟩
  | .error e =>
    if excRetryable e then retryLoop op delays max_retries 0 e 1 []
    else ⟨.error e, 1, []⟩

/-- With a non-empty delay list the delay lookup never fails. -/
theorem pyDelayAt_ok (delays : List Int) (hd : delays ≠ []) (attempt : Nat) :
    ∃ d, pyDelayAt delays attempt = .ok d := by
  rw [pyDelayAt]
  split_ifs with h
  · exact ⟨_, rfl⟩
  · rcases hlast : delays.getLast? with _ | d
    · rw [List.getLast?_eq_none_iff] at hlast
      exact absurd hlast hd
    · exact ⟨d, rfl⟩

/-- Loop invariant for an operation that fails retryably on every invocation:
every iteration consumes one invocation, and the loop ends by re-raising the
error of the most recent invocation. -/
theorem retryLoop_exhaust {α : Type} (op : Nat → Except PyExc α)
    (delays : List Int) (hd : delays ≠ [])
    (hop : ∀ n, ∃ e, op n = .error e ∧ excRetryable e = true) :
    ∀ remaining attempt last calls sleeps, 1 ≤ calls →
      op (calls - 1) = .error last →
      (retryLoop op delays remaining attempt last calls sleeps).calls
          = calls + remaining ∧
      ∃ e, op (calls + remaining - 1) = .error e ∧
        (retryLoop op delays remaining attempt last calls sleeps).outcome
          = .error e := by
  intro remaining
  induction remaining with
  | zero =>
    intro attempt last calls sleeps hc hlast
    exact ⟨by simp [retryLoop], last, by simpa using hlast, by simp [retryLoop]⟩
  | succ r ih =>
    intro attempt last calls sleeps hc hlast
    obtain ⟨d, hdly⟩ := pyDelayAt_ok delays hd attempt
    obtain ⟨e, hope, hre⟩ := hop calls
    simp only [retryLoop, hdly, hope, hre, if_pos]
    have h1 : 1 ≤ calls + 1 := by omega
    have h2 : op (calls + 1 - 1) = .error e := by simpa using hope
    obtain ⟨hcalls, e2, hope2, hout⟩ :=
      ih (attempt + 1) e (calls + 1) (sleeps ++ [d]) h1 h2
    refine ⟨by omega, e2, ?_, hout⟩
    have : calls + 1 + r - 1 = calls + (r + 1) - 1 := by omega
    rwa [this] at hope2

/-- Client construction state used by `_prepare_headers` and the request
loggers: base url, optional api key, constructor-supplied extra headers. -/
structure HttpClientCfg where
  base_url : String
  api_key : Option String
  additional_headers : List (String × String)

/-- Python `dict` assignment/update for one string key: overwrite in place when
the key exists, append otherwise. -/
def updateAssoc (hs : List (String × String)) (k v : String) :
    List (String × String) :=
  if hs.any (fun kv => kv.1 == k) then
    hs.map (fun kv => if kv.1 == k then (k, v) else kv)
  else hs ++ [(k, v)]

/-- Python `dict.update`: apply each pair of `new` in order. -/
def dictUpdate (hs new : List (String × String)) : List (String × String) :=
  new.foldl (fun acc kv => updateAssoc acc kv.1 kv.2) hs

/-- Embeds `HttpClient._prepare_headers`: start empty, add `X-API-Key` when an
api key is set, merge the constructor's additional headers, then merge the
per-request headers (which may override). -/
def prepare_headers (cfg : HttpClientCfg)
    (additional : Option (List (String × String))) : List (String × String) :=
  let headers : List (String × String) :=
    match cfg.api_key with
    | some k => [("X-API-Key", k)]
    | Option.none => []
  let headers := dictUpdate headers cfg.additional_headers
  match additional with
  | some hs => dictUpdate headers hs
  | Option.none => headers

/-- Python `str.lower()` of a header name, modelled per character (header
names are ASCII). -/
def lowerStr (s : String) : String := String.mk (s.toList.map Char.toLower)

/-- The predicate of the source's logging filter
`if k.lower() != 'x-api-key'`. -/
def keyVisible (kv : String × String) : Bool :=
  lowerStr kv.1 != "x-api-key"

/-- The header dict as the source logs it: every `x-api-key` entry (any case)
removed. -/
def hideApiKey (hs : List (String × String)) : List (String × String) :=
  hs.filter keyVisible

/-- `urlencode(params)` modelled as `k=v` pairs joined by `&`; percent-escaping
is not modelled (no claim depends on it). -/
def urlencodeSimple (ps : List (String × String)) : String :=
  String.intercalate "&" (ps.map (fun kv => kv.1 ++ "=" ++ kv.2))

/-- The structured data `HttpClient.get` passes to `logger.debug` before
sending: host, full url (with query when `params` is truthy), the params and
the filtered headers. -/
structure GetLogData where
  host : String
  full_url : String
  params : Option (List (String × String))
  headers : List (String × String)
  deriving DecidableEq

/-- Log payload of `HttpClient.get` (source lines 216-224). -/
def get_log_data (cfg : HttpClientCfg) (path : String)
    (params : Option (List (String × String)))
    (headers : Option (List (String × String))) : GetLogData :=
  let url :=
    if (match params with
        | some ps => !ps.isEmpty
        | Option.none => false) then
      cfg.base_url ++ path ++ "?" ++ urlencodeSimple (params.getD [])
    else cfg.base_url ++ path
  let request_headers :=
    dictUpdate (prepare_headers cfg headers)
      [("Content-Type", "application/json")]
  { host := cfg.base_url, full_url := url, params := params,
    headers := hideApiKey request_headers }

/-- The structured data `HttpClient.post` passes to `logger.debug` before
sending (source lines 269-277). -/
structure PostLogData where
  host : String
  full_url : String
  has_data : Bool
  headers : List (String × String)
  deriving DecidableEq

/-- The structured data `HttpClient.post` passes to `logger.info` after the
response arrives (source lines 283-289); the elapsed time is a parameter of
the model. -/
structure PostInfoLogData where
  request_time_ms : Int
  status : Int
  deriving DecidableEq

/-- Both log payloads of one `HttpClient.post` call. -/
def post_logs (cfg : HttpClientCfg) (path : String) (has_data : Bool)
    (headers : Option (List (String × String)))
    (request_time_ms status : Int) : PostLogData × PostInfoLogData :=
  let request_headers :=
    dictUpdate (prepare_headers cfg headers)
      [("Content-Type", "application/json")]
  ({ host := cfg.base_url, full_url := cfg.base_url ++ path,
     has_data := has_data, headers := hideApiKey request_headers },
   { request_time_ms := request_time_ms, status := status })

theorem keyVisible_update (kv : String × String) (k v : String) :
    keyVisible (if kv.1 == k then (k, v) else kv) = keyVisible kv := by
  by_cases h : kv.1 == k
  · rw [if_pos h]
    have hk : kv.1 = k := by simpa using h
    simp [keyVisible, hk]
  · rw [if_neg h]

theorem any_of_filter_any (hs : List (String × String))
    (p q : String × String → Bool) (h : (hs.filter q).any p = true) :
    hs.any p = true := by
  rw [List.any_eq_true] at h ⊢
  obtain ⟨kv, hmem, hp⟩ := h
  exact ⟨kv, (List.mem_filter.mp hmem).1, hp⟩

theorem hide_updateAssoc (hs : List (String × String)) (k v : String) :
    hideApiKey (updateAssoc hs k v) =
      if keyVisible (k, v) then updateAssoc (hideApiKey hs) k v
      else hideApiKey hs := by
  unfold updateAssoc hideApiKey
  by_cases hmem : hs.any (fun kv => kv.1 == k)
  · rw [if_pos hmem]
    rw [List.filter_map]
    have hpt : ∀ kv ∈ hs,
        (keyVisible ∘ fun kv => if kv.1 == k then (k, v) else kv) kv
          = keyVisible kv := fun kv _ => keyVisible_update kv k v
    rw [List.filter_congr hpt]
    by_cases hkv : keyVisible (k, v)
    · rw [if_pos hkv]
      have hmem2 : (hs.filter keyVisible).any (fun kv => kv.1 == k) = true := by
        rw [List.any_eq_true] at hmem ⊢
        obtain ⟨kv, hm, hk⟩ := hmem
        refine ⟨kv, List.mem_filter.mpr ⟨hm, ?_⟩, hk⟩
        have hk2 : kv.1 = k := by simpa using hk
        have : keyVisible kv = keyVisible (k, v) := by simp [keyVisible, hk2]
        rw [this]
        exact hkv
      rw [if_pos hmem2]
    · rw [if_neg hkv]
      refine List.map_congr_left ?_ |>.trans (List.map_id _)
      intro kv hm
      obtain ⟨hmh, hv⟩ := List.mem_filter.mp hm
      have hne : (kv.1 == k) = false := by
        by_contra hcon
        rw [Bool.not_eq_false, beq_iff_eq] at hcon
        have : keyVisible kv = keyVisible (k, v) := by simp [keyVisible, hcon]
        rw [this] at hv
        exact hkv (by simpa using hv)
      simp [hne]
  · rw [if_neg hmem, List.filter_append]
    by_cases hkv : keyVisible (k, v)
    · rw [if_pos hkv]
      have hmem2 : ¬(hs.filter keyVisible).any (fun kv => kv.1 == k) = true :=
        fun hcon => hmem (any_of_filter_any hs _ keyVisible hcon)
      rw [if_neg hmem2]
      congr 1
      simp [hkv]
    · rw [if_neg hkv]
      have : List.filter keyVisible [(k, v)] = [] := by simp [hkv]
      rw [this, List.append_nil]

theorem hide_dictUpdate (hs new : List (String × String)) :
    hideApiKey (dictUpdate hs new)
      = dictUpdate (hideApiKey hs) (hideApiKey new) := by
  induction new generalizing hs with
  | nil => rfl
  | cons kv rest ih =>
    obtain ⟨k, v⟩ := kv
    have h1 : dictUpdate hs ((k, v) :: rest)
        = dictUpdate (updateAssoc hs k v) rest := rfl
    rw [h1, ih, hide_updateAssoc]
    by_cases hkv : keyVisible (k, v)
    · rw [if_pos hkv]
      have h2 : hideApiKey ((k, v) :: rest)
          = (k, v) :: hideApiKey rest := by simp [hideApiKey, hkv]
      rw [h2]
      rfl
    · rw [if_neg hkv]
      have h2 : hideApiKey ((k, v) :: rest) = hideApiKey rest := by
        simp only [hideApiKey, List.filter_cons]
        rw [if_neg (by simpa using hkv)]
      rw [h2]

/-- The api key never survives the logging filter: the filtered request
headers are the same whatever `api_key` is. -/
theorem hide_prepare_headers (base_url : String) (a b : Option String)
    (addl : List (String × String)) (req : Option (List (String × String))) :
    hideApiKey (prepare_headers ⟨base_url, a, addl⟩ req)
      = hideApiKey (prepare_headers ⟨base_url, b, addl⟩ req) := by
  have hbase : ∀ o : Option String,
      hideApiKey (match o with
        | some k => [("X-API-Key", k)]
        | Option.none => []) = [] := by
    intro o
    cases o with
    | none => rfl
    | some k =>
      have hkv : keyVisible ("X-API-Key", k) = false := by
        simp only [keyVisible]
        decide
      simp only [hideApiKey, List.filter_cons, hkv]
      simp
  cases req with
  | none =>
    show hideApiKey (dictUpdate _ addl) = hideApiKey (dictUpdate _ addl)
    rw [hide_dictUpdate, hide_dictUpdate, hbase, hbase]
  | some hs =>
    show hideApiKey (dictUpdate (dictUpdate _ addl) hs)
        = hideApiKey (dictUpdate (dictUpdate _ addl) hs)
    rw [hide_dictUpdate, hide_dictUpdate, hide_dictUpdate, hide_dictUpdate,
      hbase, hbase]

/-- Builder-level configuration, as constructed in the repository's test
(`OrderBuilder(maker_address=..., fee_rate_bps=..., price_tick=...)`). -/
structure OrderBuilderCfg where
  maker_address : String
  fee_rate_bps : Int
  price_tick : ℚ

/-- Modelled from the spec: `orders/builder.py` is not under `src` (only its
test `tests/test_order_builder.py` and the `orders/__init__.py` re-export
reference `OrderBuilder.build_order`), so the builder is modelled from spec
§4.2: validate the GTC arguments (§4.1) first; round the price to the nearest
multiple of `price_tick`; when the rounded price is degenerate (≤ 0 or ≥ 1)
fail with a validation error naming the tick boundary (`"rounds to 0.0"` /
`"rounds to 1.0"`) instead of clamping; otherwise scale amounts to 6-decimal
integer base units with round-half-up (BUY: makerAmount = size·price·10⁶ USDC
to pay, takerAmount = size·10⁶ shares; SELL swapped).  The fresh random
positive `salt` is modelled as a parameter; `taker` defaults to the zero
address, expiration and nonce to 0, signature type to EOA = 0. -/
def build_order (cfg : OrderBuilderCfg) (token_id : String) (price size : ℚ)
    (side : Side) (salt : Int) : Except String UnsignedOrder :=
  match validate_gtc_order_args token_id price size side Option.none
      Option.none Option.none with
  | .error m => .error m
  | .ok _ =>
    let rounded : ℚ := (round (price / cfg.price_tick) : ℤ) * cfg.price_tick
    if rounded ≤ 0 then
      .error "Invalid price: rounds to 0.0 at the configured price tick"
    else if 1 ≤ rounded then
      .error "Invalid price: rounds to 1.0 at the configured price tick"
    else
      .ok { salt := salt,
            maker := cfg.maker_address,
            signer := cfg.maker_address,
            taker := "0x0000000000000000000000000000000000000000",
            token_id := token_id,
            maker_amount :=
              if side = .buy then round (size * rounded * 1000000)
              else round (size * 1000000),
            taker_amount :=
              if side = .buy then round (size * 1000000)
              else round (size * rounded * 1000000),
            expiration := 0,
            nonce := 0,
            fee_rate_bps := cfg.fee_rate_bps,
            side := if side = .buy then 0 else 1,
            signature_type := 0,
            price := some rounded }

/-- A validator outcome that is not success is an error with some message. -/
theorem except_ne_ok {v : Except String Unit} (h : ¬v = .ok ()) :
    ∃ m, v = .error m := by
  rcases v with m | u
  · exact ⟨m, rfl⟩
  · cases u
    exact absurd rfl h

/-- Claim C1 (counterexample): the claim says `validate_gtc_order_args` raises
`ValidationError` whenever `token_id` contains a non-digit character; but the
token `"12\n"` contains the non-digit newline and is accepted with otherwise
valid arguments, because CPython's `re.match(r"^\d+$", ...)` lets `$` match
just before a trailing newline. -/
theorem gtc_newline_token_counterexample :
    validate_gtc_order_args "12\n" (65 / 100) 100 .buy Option.none Option.none
        Option.none = .ok () ∧
      "12\n".toList.all Char.isDigit = false := by
  constructor
  · rw [validate_gtc_ok_iff]
    refine ⟨by decide, by decide, by decide, by simp, by simp, by simp,
      by norm_num, by norm_num, by norm_num⟩
  · decide

/-- Claim C1 (amended): `validate_gtc_order_args` raises `ValidationError`
whenever `token_id` is empty, equals `"0"`, or fails the code's `^\d+$` match
(all digits, except that Python's `$` also accepts one trailing newline), or
`price < 0`, or `price > 1`, or `size ≤ 0`; and it returns successfully for
`token_id = "123456"`, `price = 0.65`, `size = 100.0` with taker, expiration
and nonce absent. -/
theorem gtc_rejection_set_amended :
    (∀ (token_id : String) (price size : ℚ) (side : Side)
        (taker : Option String) (expiration nonce : Option Int),
      (token_id = "" ∨ token_id = "0" ∨ pyMatchDigits token_id = false ∨
          price < 0 ∨ 1 < price ∨ size ≤ 0) →
      ∃ m, validate_gtc_order_args token_id price size side taker expiration
          nonce = .error m) ∧
    validate_gtc_order_args "123456" (65 / 100) 100 .buy Option.none
      Option.none Option.none = .ok () := by
  constructor
  · intro token_id price size side taker expiration nonce hbad
    apply except_ne_ok
    rw [validate_gtc_ok_iff]
    rintro ⟨h1, h2, h3, _h4, _h5, _h6, h7, h8, h9⟩
    rcases hbad with hb | hb | hb | hb | hb | hb
    · exact h1 hb
    · exact h2 hb
    · rw [h3] at hb
      cases hb
    · linarith
    · linarith
    · linarith
  · rw [validate_gtc_ok_iff]
    refine ⟨by decide, by decide, by decide, by simp, by simp, by simp,
      by norm_num, by norm_num, by norm_num⟩

/-- Claim C1 (witness for the amended theorem): the rejection half applied to
the concrete non-digit token `"12a"`. -/
theorem gtc_rejection_set_amended_witness :
    ∃ m, validate_gtc_order_args "12a" (65 / 100) 100 .buy Option.none
        Option.none Option.none = .error m :=
  gtc_rejection_set_amended.1 "12a" (65 / 100) 100 .buy Option.none Option.none
    Option.none (Or.inr (Or.inr (Or.inl (by decide))))

/-- Claim C10: the GTC price-range check is inclusive.  For every token id the
validator accepts and every positive size (and any valid optional arguments),
calls with `price = 0` and with `price = 1` both return successfully. -/
theorem gtc_price_bounds_inclusive (token_id : String) (size : ℚ) (side : Side)
    (taker : Option String) (expiration nonce : Option Int)
    (h1 : token_id ≠ "") (h2 : token_id ≠ "0")
    (h3 : pyMatchDigits token_id = true)
    (h4 : ∀ a ∈ taker, is_valid_address a = true)
    (h5 : ∀ e ∈ expiration, 0 ≤ e) (h6 : ∀ n ∈ nonce, 0 ≤ n)
    (hsize : 0 < size) :
    validate_gtc_order_args token_id 0 size side taker expiration nonce
        = .ok () ∧
    validate_gtc_order_args token_id 1 size side taker expiration nonce
        = .ok () := by
  constructor <;> rw [validate_gtc_ok_iff] <;>
    exact ⟨h1, h2, h3, h4, h5, h6, by norm_num, by norm_num, hsize⟩

/-- Claim C10 (witness): boundary prices 0 and 1 are accepted for the concrete
valid arguments of the spec's example. -/
theorem gtc_price_bounds_inclusive_witness :
    validate_gtc_order_args "123456" 0 100 .buy Option.none Option.none
        Option.none = .ok () ∧
    validate_gtc_order_args "123456" 1 100 .buy Option.none Option.none
        Option.none = .ok () :=
  gtc_price_bounds_inclusive "123456" 100 .buy Option.none Option.none
    Option.none (by decide) (by decide) (by decide) (by simp) (by simp)
    (by simp) (by norm_num)

/-- Claim C4 (counterexample): the claim says an unsigned order with
`token_id = "0"` is rejected; but `validate_unsigned_order` has no such check
(`"0"` matches `^\d+$`), so a fully valid order with token id `"0"` is
accepted. -/
theorem unsigned_token_zero_counterexample :
    validate_unsigned_order
      { salt := 1, maker := "0x1111111111111111111111111111111111111111",
        signer := "0x1111111111111111111111111111111111111111",
        taker := "0x0000000000000000000000000000000000000000",
        token_id := "0", maker_amount := 1, taker_amount := 1,
        expiration := 0, nonce := 0, fee_rate_bps := 0, side := 0,
        signature_type := 0, price := Option.none } = .ok () ∧
    ({ salt := 1, maker := "0x1111111111111111111111111111111111111111",
        signer := "0x1111111111111111111111111111111111111111",
        taker := "0x0000000000000000000000000000000000000000",
        token_id := "0", maker_amount := 1, taker_amount := 1,
        expiration := 0, nonce := 0, fee_rate_bps := 0, side := 0,
        signature_type := 0, price := Option.none } : UnsignedOrder).token_id
      = "0" := by
  constructor
  · decide
  · rfl

/-- Claim C4 (amended): every order accepted by `validate_unsigned_order`
satisfies all the structural invariants the claim lists except the
`token_id ≠ "0"` clause, which the source function never checks: addresses
pass the code's `^0x[0-9a-fA-F]{40}$` check, amounts are positive,
`token_id` passes the code's `^\d+$` check, `expiration ≥ 0`, `salt > 0`,
`nonce ≥ 0`, `fee_rate_bps ≥ 0`, `side ∈ {0, 1}`, `signature_type ≥ 0`, and
the price, when present, lies in `[0, 1]`. -/
theorem unsigned_invariants_amended (o : UnsignedOrder)
    (h : validate_unsigned_order o = .ok ()) :
    is_valid_address o.maker = true ∧ is_valid_address o.signer = true ∧
    is_valid_address o.taker = true ∧ 0 < o.maker_amount ∧
    0 < o.taker_amount ∧ pyMatchDigits o.token_id = true ∧
    0 ≤ o.expiration ∧ 0 < o.salt ∧ 0 ≤ o.nonce ∧ 0 ≤ o.fee_rate_bps ∧
    (o.side = 0 ∨ o.side = 1) ∧ 0 ≤ o.signature_type ∧
    ∀ q ∈ o.price, 0 ≤ q ∧ q ≤ 1 := by
  rw [validate_unsigned_ok_iff] at h
  obtain ⟨a1, a2, a3, _, _, a6, a7, a8, a9, a10, a11, a12, a13, a14, a15⟩ := h
  exact ⟨a1, a2, a3, a6, a7, a8, a9, a10, a11, a12, a13, a14, a15⟩

/-- Claim C4 (witness for the amended theorem): the invariants hold for a
concrete accepted order. -/
theorem unsigned_invariants_amended_witness :
    is_valid_address
        ({ salt := 7, maker := "0x1111111111111111111111111111111111111111",
           signer := "0x1111111111111111111111111111111111111111",
           taker := "0x0000000000000000000000000000000000000000",
           token_id := "123456", maker_amount := 2500000,
           taker_amount := 5000000, expiration := 0, nonce := 0,
           fee_rate_bps := 300, side := 0, signature_type := 0,
           price := Option.none } : UnsignedOrder).maker = true ∧
    0 < ({ salt := 7, maker := "0x1111111111111111111111111111111111111111",
           signer := "0x1111111111111111111111111111111111111111",
           taker := "0x0000000000000000000000000000000000000000",
           token_id := "123456", maker_amount := 2500000,
           taker_amount := 5000000, expiration := 0, nonce := 0,
           fee_rate_bps := 300, side := 0, signature_type := 0,
           price := Option.none } : UnsignedOrder).salt := by
  have h := unsigned_invariants_amended
    { salt := 7, maker := "0x1111111111111111111111111111111111111111",
      signer := "0x1111111111111111111111111111111111111111",
      taker := "0x0000000000000000000000000000000000000000",
      token_id := "123456", maker_amount := 2500000,
      taker_amount := 5000000, expiration := 0, nonce := 0,
      fee_rate_bps := 300, side := 0, signature_type := 0,
      price := Option.none } (by decide)
  exact ⟨h.1, h.2.2.2.2.2.2.2.1⟩

/-- A fully valid unsigned order used as the base of the signed-order claims. -/
def baseOrder : UnsignedOrder :=
  { salt := 1, maker := "0x1111111111111111111111111111111111111111",
    signer := "0x1111111111111111111111111111111111111111",
    taker := "0x0000000000000000000000000000000000000000",
    token_id := "123456", maker_amount := 1, taker_amount := 1,
    expiration := 0, nonce := 0, fee_rate_bps := 0, side := 0,
    signature_type := 0, price := Option.none }

set_option maxRecDepth 20000 in
/-- Claim C3 (counterexample): the claim says changing any single character of
an accepted signature makes `validate_signed_order` fail; but the validator
only checks the shape, so replacing the hex digit at index 2 (`'a'`) by
another hex digit (`'b'`) yields a signature that is still accepted. -/
theorem signed_hex_mutation_counterexample :
    validate_signed_order
        ⟨baseOrder, String.mk ('0' :: 'x' :: List.replicate 130 'a')⟩
      = .ok () ∧
    validate_signed_order
        ⟨baseOrder, String.mk ('0' :: 'x' :: 'b' :: List.replicate 129 'a')⟩
      = .ok () ∧
    (String.mk ('0' :: 'x' :: 'b' :: List.replicate 129 'a')).toList
      = (String.mk ('0' :: 'x' :: List.replicate 130 'a')).toList.set 2 'b' ∧
    String.mk ('0' :: 'x' :: List.replicate 130 'a')
      ≠ String.mk ('0' :: 'x' :: 'b' :: List.replicate 129 'a') := by
  refine ⟨by decide, by decide, by decide, by decide⟩

/-- Claim C3 (amended): `validate_signed_order` succeeds only when the
signature is non-empty, starts with `"0x"`, has length exactly 132 and matches
`^0x[0-9a-fA-F]{130}$`; and for an accepted order, acceptance depends on the
signature only through that shape: replacing the signature makes validation
fail exactly when the replacement breaks the shape (so a single-character
change to a string still matching the pattern — a hex digit changed to another
hex digit — is still accepted, while any change that breaks the pattern is
rejected). -/
theorem signed_signature_shape_amended (o : SignedOrder)
    (h : validate_signed_order o = .ok ()) :
    (o.signature ≠ "" ∧ pyStartsWith o.signature "0x" = true ∧
      o.signature.length = 132 ∧ pyMatchHex o.signature 130 = true) ∧
    ∀ s2 : String,
      (validate_signed_order { o with signature := s2 } = .ok () ↔
        sig_shape s2 = true) := by
  rw [validate_signed_ok_iff] at h
  obtain ⟨hu, hs⟩ := h
  constructor
  · simp only [sig_shape, Bool.and_eq_true, decide_eq_true_eq] at hs
    exact ⟨hs.1.1.1, hs.1.1.2, hs.1.2, hs.2⟩
  · intro s2
    rw [validate_signed_ok_iff]
    have hbase : ({ o with signature := s2 } : SignedOrder).toUnsignedOrder
        = o.toUnsignedOrder := rfl
    rw [hbase]
    simp [hu]

set_option maxRecDepth 20000 in
/-- Claim C3 (witness for the amended theorem): the shape facts for a concrete
accepted order, and the signature-replacement equivalence evaluated at a
replacement that breaks the pattern (a non-hex character at index 2), which is
therefore rejected. -/
theorem signed_signature_shape_amended_witness :
    ((String.mk ('0' :: 'x' :: List.replicate 130 'a') ≠ "") ∧
      pyStartsWith (String.mk ('0' :: 'x' :: List.replicate 130 'a')) "0x"
        = true ∧
      (String.mk ('0' :: 'x' :: List.replicate 130 'a')).length = 132 ∧
      pyMatchHex (String.mk ('0' :: 'x' :: List.replicate 130 'a')) 130
        = true) ∧
    (validate_signed_order
        { (⟨baseOrder, String.mk ('0' :: 'x' :: List.replicate 130 'a')⟩ :
            SignedOrder) with
          signature := String.mk ('0' :: 'x' :: 'z' :: List.replicate 129 'a') }
        = .ok () ↔
      sig_shape (String.mk ('0' :: 'x' :: 'z' :: List.replicate 129 'a'))
        = true) := by
  have h := signed_signature_shape_amended
    ⟨baseOrder, String.mk ('0' :: 'x' :: List.replicate 130 'a')⟩ (by decide)
  exact ⟨h.1, h.2 (String.mk ('0' :: 'x' :: 'z' :: List.replicate 129 'a'))⟩

/-- Claim C5 (counterexample): the claim says every positive amount with three
or more decimal places is rejected; but `0.00001` (five decimal places) with a
valid token id is accepted: CPython renders it as `1e-05`, which contains no
dot, so the source's `amount_str.find(".")` guard never fires. -/
theorem fok_scientific_notation_counterexample :
    validate_fok_order_args "123456" ⟨1, 5⟩ .buy Option.none Option.none
        Option.none = .ok () ∧
    0 < (⟨1, 5⟩ : Dec).toRat ∧ 2 < (⟨1, 5⟩ : Dec).places ∧
    pyFloatStr ⟨1, 5⟩ = "1e-05" := by
  refine ⟨?_, ?_, by decide, by decide⟩
  · rw [validate_fok_ok_iff]
    refine ⟨by decide, by decide, by decide, by simp, by simp, by simp, ?_,
      by decide⟩
    rw [Dec.toRat_pos_iff]
    decide
  · rw [Dec.toRat_pos_iff]
    decide

/-- Claim C5 (amended): with a valid token id and no optional arguments,
`validate_fok_order_args` raises `ValidationError` exactly when the amount is
not positive or its `str()` rendering shows more than two digits after a
decimal point (non-numeric amounts cannot occur in the typed embedding).
For amounts rendered in plain decimal form (decimal exponent in `[-4, 16)`)
this is the claimed rule: rejected iff more than two decimal places, so
`10.125` is rejected and every such positive amount with at most two decimal
places is accepted.  But amounts rendered in scientific notation escape the
claimed rule: a single-digit mantissa (such as `0.00001`, rendered `1e-05`
with no dot) is accepted regardless of its decimal places, and a multi-digit
mantissa (such as `1.5e-05`) is always rejected. -/
theorem fok_amount_precision_amended (token_id : String) (d : Dec)
    (side : Side) (h1 : token_id ≠ "") (h2 : token_id ≠ "0")
    (h3 : pyMatchDigits token_id = true) :
    validate_fok_order_args token_id d side Option.none Option.none Option.none
        = .ok () ↔
      (0 < d.toRat ∧
        ((d.plainForm = true ∧ d.places ≤ 2) ∨
          (d.plainForm = false ∧ d.sciMantissa < 10))) := by
  rw [validate_fok_ok_iff]
  have hb : fokDecimalsBad d = false ↔
      ((d.plainForm = true ∧ d.places ≤ 2) ∨
        (d.plainForm = false ∧ d.sciMantissa < 10)) := by
    constructor
    · intro hv
      have hiff := fokDecimalsBad_iff d
      rw [hv] at hiff
      simp only [Bool.false_eq_true, false_iff, not_or] at hiff
      obtain ⟨ha, hbb⟩ := hiff
      cases hpf : d.plainForm with
      | false =>
        right
        refine ⟨rfl, ?_⟩
        by_contra hcon
        exact hbb ⟨hpf, by omega⟩
      | true =>
        left
        refine ⟨rfl, ?_⟩
        by_contra hcon
        exact ha ⟨hpf, by omega⟩
    · intro hgood
      rcases hv : fokDecimalsBad d with _ | _
      · rfl
      · exfalso
        have hbad := (fokDecimalsBad_iff d).mp hv
        rcases hbad with ⟨hp1, hp2⟩ | ⟨hp1, hp2⟩ <;>
          rcases hgood with ⟨hg1, hg2⟩ | ⟨hg1, hg2⟩ <;>
          simp_all <;> omega
  rw [hb]
  simp [h1, h2, h3]

/-- Claim C5 (witness for the amended theorem): in plain decimal form the rule
behaves as claimed — `10.125` (three decimal places) is rejected and `5.0` is
accepted, both with a valid token id. -/
theorem fok_amount_precision_amended_witness :
    ¬validate_fok_order_args "123456" ⟨10125, 3⟩ .buy Option.none Option.none
        Option.none = .ok () ∧
    validate_fok_order_args "123456" ⟨50, 1⟩ .buy Option.none Option.none
        Option.none = .ok () := by
  have hrej := fok_amount_precision_amended "123456" ⟨10125, 3⟩ .buy
    (by decide) (by decide) (by decide)
  have hacc := fok_amount_precision_amended "123456" ⟨50, 1⟩ .buy (by decide)
    (by decide) (by decide)
  constructor
  · intro hok
    have h2 := (hrej.mp hok).2
    revert h2
    decide
  · refine hacc.mpr ⟨?_, by decide⟩
    rw [Dec.toRat_pos_iff]
    decide

/-- Claim C2: for every response with status ≥ 400, each of
`HttpClient.get` / `post` / `delete` raises the error produced by
`_handle_error_response`, whose class is `RateLimitError` iff the status is
429, `AuthenticationError` iff it is 401 or 403, plain `APIError` otherwise,
and which carries the status code, the raw response body, the request url
(path) and the method name. -/
theorem http_error_mapping (m : HttpMethod) (status : Int) (data : PyVal)
    (path : String) (h : 400 ≤ status) :
    http_response_result m status data path
        = .error (handle_error_response status data path (methodName m)) ∧
    ((handle_error_response status data path (methodName m)).kind = .rateLimit
      ↔ status = 429) ∧
    ((handle_error_response status data path (methodName m)).kind
        = .authentication ↔ (status = 401 ∨ status = 403)) ∧
    ((handle_error_response status data path (methodName m)).kind = .generic
      ↔ (status ≠ 429 ∧ status ≠ 401 ∧ status ≠ 403)) ∧
    (handle_error_response status data path (methodName m)).status_code
      = status ∧
    (handle_error_response status data path (methodName m)).response_data
      = data ∧
    (handle_error_response status data path (methodName m)).url = path ∧
    (handle_error_response status data path (methodName m)).method
      = methodName m := by
  refine ⟨by rw [http_response_result, if_pos h], ?_, ?_, ?_, rfl, rfl, rfl,
    rfl⟩ <;>
    simp only [handle_error_response] <;>
    split_ifs with h1 h2 <;> simp_all <;> tauto

/-- Claim C2 (witness): the mapping evaluated on a concrete 429 response. -/
theorem http_error_mapping_witness :
    http_response_result .get 429 (.dict [("message", .str "slow down")])
        "/markets"
      = .error (handle_error_response 429
          (.dict [("message", .str "slow down")]) "/markets" "GET") ∧
    ((handle_error_response 429 (.dict [("message", .str "slow down")])
        "/markets" "GET").kind = .rateLimit ↔ (429 : Int) = 429) ∧
    (handle_error_response 429 (.dict [("message", .str "slow down")])
        "/markets" "GET").status_code = 429 := by
  have h := http_error_mapping .get 429 (.dict [("message", .str "slow down")])
    "/markets" (by norm_num)
  exact ⟨h.1, h.2.1, h.2.2.2.2.1⟩

/-- The shapes of failure the claim C6 quantifies over: an error carrying a
status code other than 429, or a timeout-class error. -/
def nonRetryableShape : PyExc → Prop
  | .rateLimitError sc _ => sc ≠ 429
  | .clientResponseError st _ => st ≠ 429
  | .serverTimeoutError _ => True
  | .asyncioTimeoutError _ => True
  | .generic _ => False

theorem nonRetryableShape_not_retryable (e : PyExc)
    (h : nonRetryableShape e) : excRetryable e = false := by
  cases e <;> simp_all [nonRetryableShape, excRetryable]

/-- Claim C6: if the first invocation of the wrapped operation fails with an
error whose status code is not 429, or with a timeout-class error, the
`retry_on_rate_limit` wrapper re-raises that same error after exactly one
invocation, with no sleeps and no further attempts. -/
theorem retry_short_circuit {α : Type} (max_retries : Nat)
    (delays : List Int) (op : Nat → Except PyExc α) (e : PyExc)
    (h0 : op 0 = .error e) (hnr : nonRetryableShape e) :
    retry_on_rate_limit max_retries delays op
      = ⟨.error e, 1, []⟩ := by
  have hre : excRetryable e = false := nonRetryableShape_not_retryable e hnr
  rw [retry_on_rate_limit, h0]
  simp [hre]

/-- Claim C6 (witness): an operation that always fails with HTTP 500 is
re-raised immediately after one invocation. -/
theorem retry_short_circuit_witness :
    retry_on_rate_limit 3 [1, 2, 3]
        (fun _ => (.error (.clientResponseError 500 "Internal Server Error") :
          Except PyExc Unit))
      = ⟨.error (.clientResponseError 500 "Internal Server Error"), 1, []⟩ :=
  retry_short_circuit 3 [1, 2, 3] _
    (.clientResponseError 500 "Internal Server Error") rfl
    (by norm_num [nonRetryableShape])

/-- The retryable status-429 failures of claim C7: a `RateLimitError` or
`aiohttp.ClientResponseError` whose carried status is 429. -/
def status429Exc (e : PyExc) : Prop :=
  (∃ m, e = .rateLimitError 429 m) ∨ (∃ m, e = .clientResponseError 429 m)

theorem status429Exc_retryable (e : PyExc) (h : status429Exc e) :
    excRetryable e = true := by
  rcases h with ⟨m, rfl⟩ | ⟨m, rfl⟩ <;> simp [excRetryable]

/-- Claim C7: for every `max_retries ≥ 0` (and non-empty delay list, as at
every call site) and every operation failing with a retryable status-429 error
on every invocation, the wrapped call invokes the operation exactly
`1 + max_retries` times and then re-raises the last failure, its status-429
shape intact. -/
theorem retry_exhaustion_count {α : Type} (max_retries : Nat)
    (delays : List Int) (op : Nat → Except PyExc α) (hd : delays ≠ [])
    (hop : ∀ n, ∃ e, op n = .error e ∧ status429Exc e) :
    (retry_on_rate_limit max_retries delays op).calls = 1 + max_retries ∧
    ∃ e, op max_retries = .error e ∧
      (retry_on_rate_limit max_retries delays op).outcome = .error e ∧
      status429Exc e := by
  have hop2 : ∀ n, ∃ e, op n = .error e ∧ excRetryable e = true := by
    intro n
    obtain ⟨e, he, h429⟩ := hop n
    exact ⟨e, he, status429Exc_retryable e h429⟩
  obtain ⟨e0, he0, h4290⟩ := hop 0
  have hloop := retryLoop_exhaust op delays hd hop2 max_retries 0 e0 1 []
    (by omega) (by simpa using he0)
  obtain ⟨hcalls, elast, hoplast, hout⟩ := hloop
  have hre0 := status429Exc_retryable e0 h4290
  have hunfold : retry_on_rate_limit max_retries delays op
      = retryLoop op delays max_retries 0 e0 1 [] := by
    rw [retry_on_rate_limit, he0]
    simp [hre0]
  rw [hunfold]
  refine ⟨by omega, elast, by simpa using hoplast, hout, ?_⟩
  obtain ⟨e2, he2, h4292⟩ := hop (1 + max_retries - 1)
  rw [hoplast] at he2
  injection he2 with hh
  rw [← hh] at h4292
  exact h4292

/-- Claim C7 (witness): with the source defaults (`max_retries = 2`,
`delays = [5, 10]`) and an operation that always fails with `RateLimitError`
status 429, the operation runs exactly 3 times and the last failure is
re-raised. -/
theorem retry_exhaustion_count_witness :
    (retry_on_rate_limit 2 [5, 10]
        (fun _ => (.error (.rateLimitError 429 "Rate limit exceeded") :
          Except PyExc Unit))).calls = 3 ∧
    (retry_on_rate_limit 2 [5, 10]
        (fun _ => (.error (.rateLimitError 429 "Rate limit exceeded") :
          Except PyExc Unit))).outcome
      = .error (.rateLimitError 429 "Rate limit exceeded") := by
  have h := retry_exhaustion_count 2 [5, 10]
    (fun _ => (.error (.rateLimitError 429 "Rate limit exceeded") :
      Except PyExc Unit))
    (by simp)
    (fun n => ⟨.rateLimitError 429 "Rate limit exceeded", rfl,
      Or.inl ⟨"Rate limit exceeded", rfl⟩⟩)
  obtain ⟨hcalls, e, hope, hout, _⟩ := h
  refine ⟨by simpa using hcalls, ?_⟩
  injection hope with hh
  rw [hout, ← hh]

/-- Claim C8: the structured data `HttpClient.get` and `HttpClient.post` pass
to the logger never contains an `x-api-key` entry, and two clients differing
only in their api key produce identical log payloads for the same path,
params, per-request headers and response — a two-run noninterference statement
over the log channel. -/
theorem http_log_noninterference (base_url : String)
    (addl : List (String × String)) (a b : Option String) (path : String)
    (params : Option (List (String × String)))
    (req : Option (List (String × String))) (has_data : Bool)
    (request_time_ms status : Int) :
    get_log_data ⟨base_url, a, addl⟩ path params req
      = get_log_data ⟨base_url, b, addl⟩ path params req ∧
    post_logs ⟨base_url, a, addl⟩ path has_data req request_time_ms status
      = post_logs ⟨base_url, b, addl⟩ path has_data req request_time_ms
          status ∧
    (∀ kv ∈ (get_log_data ⟨base_url, a, addl⟩ path params req).headers,
      lowerStr kv.1 ≠ "x-api-key") ∧
    (∀ kv ∈ (post_logs ⟨base_url, a, addl⟩ path has_data req request_time_ms
        status).1.headers, lowerStr kv.1 ≠ "x-api-key") := by
  have hhdr :
      hideApiKey (dictUpdate (prepare_headers ⟨base_url, a, addl⟩ req)
          [("Content-Type", "application/json")])
        = hideApiKey (dictUpdate (prepare_headers ⟨base_url, b, addl⟩ req)
          [("Content-Type", "application/json")]) := by
    rw [hide_dictUpdate, hide_dictUpdate, hide_prepare_headers base_url a b]
  have habsent : ∀ (hs : List (String × String)), ∀ kv ∈ hideApiKey hs,
      lowerStr kv.1 ≠ "x-api-key" := by
    intro hs kv hmem
    have hv := (List.mem_filter.mp hmem).2
    simpa [keyVisible] using hv
  refine ⟨?_, ?_, habsent _, habsent _⟩
  · simp only [get_log_data]
    rw [hhdr]
  · simp only [post_logs]
    rw [hhdr]

/-- Claim C9 (spec-modelled, `orders/builder.py` absent from `src`): for all
`price` and `price_tick`, `build_order` on otherwise valid arguments either
returns an order whose price equals `round(price / price_tick) * price_tick`
when that value lies strictly inside `(0, 1)`, or fails with an error naming
the tick boundary — `"rounds to 0.0"` when the rounded value is ≤ 0 and
`"rounds to 1.0"` when it is ≥ 1 — instead of clamping. -/
theorem build_order_tick_boundary (cfg : OrderBuilderCfg) (token_id : String)
    (price size : ℚ) (side : Side) (salt : Int)
    (hargs : validate_gtc_order_args token_id price size side Option.none
      Option.none Option.none = .ok ()) :
    ((round (price / cfg.price_tick) : ℤ) * cfg.price_tick ≤ 0 →
      build_order cfg token_id price size side salt
          = .error "Invalid price: rounds to 0.0 at the configured price tick"
        ∧ strContainsSub
            "Invalid price: rounds to 0.0 at the configured price tick"
            "rounds to 0.0" = true) ∧
    (1 ≤ (round (price / cfg.price_tick) : ℤ) * cfg.price_tick →
      build_order cfg token_id price size side salt
          = .error "Invalid price: rounds to 1.0 at the configured price tick"
        ∧ strContainsSub
            "Invalid price: rounds to 1.0 at the configured price tick"
            "rounds to 1.0" = true) ∧
    (0 < (round (price / cfg.price_tick) : ℤ) * cfg.price_tick →
      (round (price / cfg.price_tick) : ℤ) * cfg.price_tick < 1 →
      ∃ o, build_order cfg token_id price size side salt = .ok o ∧
        o.price = some ((round (price / cfg.price_tick) : ℤ) *
          cfg.price_tick)) := by
  refine ⟨?_, ?_, ?_⟩
  · intro hr
    constructor
    · rw [build_order, hargs]
      simp [if_pos hr]
    · decide
  · intro hr
    constructor
    · rw [build_order, hargs]
      rw [if_neg (by linarith), if_pos hr]
    · decide
  · intro hr0 hr1
    rw [build_order, hargs]
    rw [if_neg (by linarith), if_neg (by linarith)]
    exact ⟨_, rfl, rfl⟩

/-- Claim C9 (witness): with `price_tick = 0.001`, price `0.0001` rounds to
0 and fails with the `"rounds to 0.0"` error, while price `0.001` is accepted
with order price `0.001` and positive maker amount. -/
theorem build_order_tick_boundary_witness :
    build_order ⟨"0x1111111111111111111111111111111111111111", 300, 1 / 1000⟩
        "123" (1 / 10000) 1 .buy 1
      = .error "Invalid price: rounds to 0.0 at the configured price tick" ∧
    ∃ o, build_order
        ⟨"0x1111111111111111111111111111111111111111", 300, 1 / 1000⟩
        "123" (1 / 1000) 1 .buy 1 = .ok o ∧
      o.price = some (1 / 1000) ∧ 0 < o.maker_amount := by
  have hargs1 : validate_gtc_order_args "123" (1 / 10000) 1 .buy Option.none
      Option.none Option.none = .ok () := by
    rw [validate_gtc_ok_iff]
    refine ⟨by decide, by decide, by decide, by simp, by simp, by simp,
      by norm_num, by norm_num, by norm_num⟩
  have hargs2 : validate_gtc_order_args "123" (1 / 1000) 1 .buy Option.none
      Option.none Option.none = .ok () := by
    rw [validate_gtc_ok_iff]
    refine ⟨by decide, by decide, by decide, by simp, by simp, by simp,
      by norm_num, by norm_num, by norm_num⟩
  have h1 := build_order_tick_boundary
    ⟨"0x1111111111111111111111111111111111111111", 300, 1 / 1000⟩
    "123" (1 / 10000) 1 .buy 1 hargs1
  have hr1 : (round ((1 / 10000 : ℚ) / (1 / 1000)) : ℤ) * (1 / 1000 : ℚ)
      ≤ 0 := by
    rw [show ((1 / 10000 : ℚ) / (1 / 1000)) = 1 / 10 by norm_num]
    rw [show (round (1 / 10 : ℚ)) = (0 : ℤ) by norm_num [round_eq]]
    norm_num
  refine ⟨(h1.1 hr1).1, ?_⟩
  have hb : build_order
      ⟨"0x1111111111111111111111111111111111111111", 300, 1 / 1000⟩
      "123" (1 / 1000) 1 .buy 1
      = .ok { salt := 1, maker := "0x1111111111111111111111111111111111111111",
              signer := "0x1111111111111111111111111111111111111111",
              taker := "0x0000000000000000000000000000000000000000",
              token_id := "123", maker_amount := 1000,
              taker_amount := 1000000, expiration := 0, nonce := 0,
              fee_rate_bps := 300, side := 0, signature_type := 0,
              price := some (1 / 1000) } := by
    rw [build_order, hargs2]
    rw [show ((1 / 1000 : ℚ) / (1 / 1000)) = 1 by norm_num]
    rw [show (round (1 : ℚ)) = (1 : ℤ) by norm_num [round_eq]]
    norm_num [round_eq]
  exact ⟨_, hb, rfl, by norm_num⟩

end LimitlessSDK
